import Mathlib

/-!
Shallow embedding of the benchmark harness `bench.py` and the aggregation
script `gen_graphs.py` of the eth-sc-comp-benchmarks repository.  Pure
fragments of the Python code are translated into executable Lean
definitions; filesystem and process effects are represented by passing the
observed file contents and process outputs as explicit arguments, and by
returning the sequence of `os.unlink` calls performed.  Python exceptions
(`ValueError`, `AssertionError`, the `ValueError` raised in
`determine_expected`, and `exit(-1)`) are represented by `Except.error`.
Floating-point times are modelled by rationals: the code only ever compares
times and takes minima, never performs rounding-sensitive arithmetic.
-/

set_option maxRecDepth 20000

namespace Bench

/-- Python `s.startswith(pre)` on explicit character lists; the pattern is
the first argument. -/
def startswith : List Char → List Char → Bool
  | [], _ => true
  | _ :: _, [] => false
  | p :: ps, c :: cs => p == c && startswith ps cs

/-- Characters removed by Python `str.strip()`. -/
def pyWhitespace (c : Char) : Bool :=
  c == ' ' || c == '\t' || c == '\n' || c == '\r' || c == '\x0b' || c == '\x0c'

/-- Python `str.strip()`: remove leading and trailing whitespace. -/
def pyStrip (cs : List Char) : List Char :=
  ((cs.dropWhile pyWhitespace).reverse.dropWhile pyWhitespace).reverse

/-- Substring test (used for the `.*out of time` part of the runlim status
regular expression). -/
def containsSub (needle : List Char) : List Char → Bool
  | [] => needle.isEmpty
  | c :: cs => startswith needle (c :: cs) || containsSub needle cs

/-!
## gen_graphs.py: convert_to_cdf (lines 11-32)

The inner counting loop, the `lastnum` tracker initialised to `-1`, and the
rows `(num, a)` written to the output file.  The elapsed times read from the
input file are passed directly as a list of rationals.
-/

/-- Count of recorded times strictly below the integer bucket edge `a`: the
loop `for t in time: if (t < a): num += 1` of `convert_to_cdf`. -/
def cnt (time : List ℚ) (a : ℕ) : ℕ :=
  time.countP (fun t => decide (t < (a : ℚ)))

/-- The bucket loop of `convert_to_cdf` over the remaining bucket edges,
carrying the `lastnum` tracker; a row `(num, a)` is written exactly when
`lastnum != num`, and `lastnum` is updated to `num` on every iteration. -/
def cdf_rows_aux (time : List ℚ) : ℤ → List ℕ → List (ℕ × ℕ)
  | _, [] => []
  | lastnum, a :: as =>
    if lastnum ≠ (cnt time a : ℤ) then
      (cnt time a, a) :: cdf_rows_aux time (cnt time a) as
    else
      cdf_rows_aux time (cnt time a) as

/-- Rows written by `convert_to_cdf`: bucket edges `a` range over
`range(0, 3600, 1)` and `lastnum` starts at `-1`. -/
def convert_to_cdf (time : List ℚ) : List (ℕ × ℕ) :=
  cdf_rows_aux time (-1) (List.range 3600)

/-!
## bench.py: case classification, outcome parsing and execute_case

`execute_case` (bench.py lines 218-280) is embedded from the point where the
child process has run: the contents of the runlim report file, the captured
stdout/stderr, and the contents of the `time --verbose` report file are
explicit arguments.  The returned pair carries the Python return value (or
the raised exception as `Except.error`) together with the list of
`os.unlink` calls performed, in order.
-/

/-- Python `"a\nb".split("\n")` on character lists: split at every newline,
keeping empty pieces. -/
def splitNl : List Char → List (List Char)
  | [] => [[]]
  | c :: cs =>
    match splitNl cs with
    | [] => [[]]
    | r :: rs => if c = '\n' then [] :: r :: rs else (c :: r) :: rs

/-- Python `stdout.split("\n")`. -/
def pySplitLines (s : String) : List String := (splitNl s.data).map String.mk

/-- Match of `re.match("^.runlim. status:.*out of time", l)` (bench.py line
242): one arbitrary character, `runlim`, one arbitrary character,
`" status:"`, then `out of time` anywhere in the remainder. -/
def runlimTimeoutLine (l : String) : Bool :=
  match l.data with
  | [] => false
  | _ :: rest =>
    startswith "runlim".data rest &&
      (match rest.drop 6 with
       | [] => false
       | _ :: rest2 =>
         startswith " status:".data rest2 &&
           containsSub "out of time".data (rest2.drop 8))

/-- Match of `re.match("result: (.*)$", l.strip())` (bench.py lines 248-249):
after stripping, the line must begin with `"result: "` and the captured token
is the remainder of the line. -/
def resultToken (l : String) : Option String :=
  let l2 := pyStrip l.data
  if startswith "result: ".data l2 then some (String.mk (l2.drop 8)) else none

/-- The loop over stdout lines (bench.py lines 247-251): `result` starts as
`None` and is overwritten by the captured token of every matching line, so
the last match wins. -/
def scan_result (stdout : String) : Option String :=
  (pySplitLines stdout).foldl
    (fun result l =>
      match resultToken l with
      | some tok => some tok
      | none => result)
    none

/-- Lines 247-254 of bench.py: the token of the last matching stdout line,
defaulted to `"unknown"` when the wrapper reported out-of-time or when no
line matched. -/
def parse_outcome (out_of_time : Bool) (stdout : String) : String :=
  let result := scan_result stdout
  if out_of_time || result.isNone then "unknown" else result.getD ""

/-- Value of a non-empty decimal digit string. -/
def digitsToNat (ds : List Char) : ℕ :=
  ds.foldl (fun n c => 10 * n + (c.toNat - Char.toNat '0')) 0

/-- Python `int(s)`: optional surrounding whitespace, optional sign, a
non-empty digit string (underscore separators are not modelled). `none`
models a raised `ValueError`. -/
def pyParseInt (cs : List Char) : Option ℤ :=
  let t := pyStrip cs
  match t with
  | '+' :: ds =>
    if !ds.isEmpty && ds.all Char.isDigit then some ((digitsToNat ds : ℕ) : ℤ) else none
  | '-' :: ds =>
    if !ds.isEmpty && ds.all Char.isDigit then some (-((digitsToNat ds : ℕ) : ℤ)) else none
  | ds =>
    if !ds.isEmpty && ds.all Char.isDigit then some ((digitsToNat ds : ℕ) : ℤ) else none

/-- Capture of `re.match(r"Maximum resident set size .kbytes.: (.*)", l)`
(bench.py line 260): the literal prefix, a wildcard character, `kbytes`, a
wildcard character, `": "`, then the captured remainder. -/
def memToken (l : List Char) : Option (List Char) :=
  if startswith "Maximum resident set size ".data l then
    match l.drop "Maximum resident set size ".data.length with
    | [] => none
    | _ :: r1 =>
      if startswith "kbytes".data r1 then
        match r1.drop 6 with
        | [] => none
        | _ :: r2 =>
          if startswith ": ".data r2 then some (r2.drop 2) else none
      else none
  else none

/-- Capture of `re.match(r"Percent of CPU this job got: (.*)%", l)` (bench.py
line 264): greedy `(.*)` captures up to the last `%` of the line. -/
def percToken (l : List Char) : Option (List Char) :=
  if startswith "Percent of CPU this job got: ".data l then
    let rest := l.drop "Percent of CPU this job got: ".data.length
    if rest.contains '%' then
      some (((rest.reverse.dropWhile (fun c => c != '%')).drop 1).reverse)
    else none
  else none

/-- Capture of `re.match(r"Exit status:[ ]*(.*)[ ]*$", l)` (bench.py line
268): greedy `[ ]*` consumes the spaces after the colon and greedy `(.*)`
captures the rest of the line (Python `int` tolerates trailing spaces). -/
def exitToken (l : List Char) : Option (List Char) :=
  if startswith "Exit status:".data l then
    some ((l.drop "Exit status:".data.length).dropWhile (fun c => c == ' '))
  else none

/-- One iteration of the `time --verbose` parsing loop (bench.py lines
258-270), on an already-stripped line: each of the three patterns is tried in
order and may update its variable; a failing `int()` raises `ValueError`. -/
def parse_time_line (l : List Char) (mem_used_MB : Option ℚ)
    (perc_CPU exit_status : Option ℤ) :
    Except String (Option ℚ × Option ℤ × Option ℤ) := do
  let mem_used_MB ←
    match memToken l with
    | none => pure mem_used_MB
    | some tok =>
      match pyParseInt tok with
      | none => throw "ValueError: invalid literal for int()"
      | some n => pure (some ((n : ℚ) / 1000))
  let perc_CPU ←
    match percToken l with
    | none => pure perc_CPU
    | some tok =>
      match pyParseInt tok with
      | none => throw "ValueError: invalid literal for int()"
      | some n => pure (some n)
  let exit_status ←
    match exitToken l with
    | none => pure exit_status
    | some tok =>
      match pyParseInt tok with
      | none => throw "ValueError: invalid literal for int()"
      | some n => pure (some n)
  pure (mem_used_MB, perc_CPU, exit_status)

/-- The `time --verbose` parsing loop over the report file's lines. -/
def parse_time_lines : List String → Option ℚ → Option ℤ → Option ℤ →
    Except String (Option ℚ × Option ℤ × Option ℤ)
  | [], mem_used_MB, perc_CPU, exit_status =>
    Except.ok (mem_used_MB, perc_CPU, exit_status)
  | l :: ls, mem_used_MB, perc_CPU, exit_status => do
    let (m, p, e) ← parse_time_line (pyStrip l.data) mem_used_MB perc_CPU exit_status
    parse_time_lines ls m p e

/-- A test case (bench.py class `Case`); `expected` is derived by
`determine_expected` at construction, see `case_init`. -/
structure Case where
  contract : String
  json_fname : String
  sol_file : String
  ds : Bool
  fn : String
  expected : String
  deriving DecidableEq, Repr

/-- bench.py `determine_expected` (lines 100-108): classify by path, raising
`ValueError` for a path in neither directory. -/
def determine_expected (sol_file : String) : Except String String :=
  if startswith "src/safe".data sol_file.data then Except.ok "safe"
  else if startswith "src/unsafe".data sol_file.data then Except.ok "unsafe"
  else Except.error
    ("solidity file is not in the safe or unsafe directories: " ++ sol_file)

/-- bench.py `Case.__init__` (lines 112-119): a Case is constructed only if
`determine_expected` succeeds; otherwise its `ValueError` propagates. -/
def case_init (contract json_fname sol_file : String) (ds : Bool) (fn : String) :
    Except String Case :=
  match determine_expected sol_file with
  | Except.ok expected =>
    Except.ok ⟨contract, json_fname, sol_file, ds, fn, expected⟩
  | Except.error e => Except.error e

/-- bench.py `Case.get_name` (lines 121-125). -/
def get_name (c : Case) : String :=
  if c.ds then c.sol_file ++ ":" ++ c.contract ++ ":" ++ c.fn
  else c.sol_file ++ ":" ++ c.contract

/-- A solver result (bench.py class `Result`). -/
structure Result where
  result : String
  mem_used_MB : Option ℚ
  exit_status : Option ℤ
  perc_CPU : Option ℤ
  t : Option ℚ
  tout : Option ℚ
  case' : Case
  out : String
  deriving DecidableEq, Repr

/-- bench.py `execute_case`, lines 233-280 (after the child process ran):
parse the runlim report for an out-of-time status, scan stdout for the
tagged result line, parse the `time --verbose` report, assert that the
outcome is one of the three literals, unlink the two scratch files, and
build the `Result`.  The second component lists the `os.unlink` calls
performed; `Except.error` models a raised exception (which skips the
unlinks, as they are only reached on the normal path). -/
def execute_case (fname_runlim fname_time : String) (runlim_lines : List String)
    (stdout stderr : String) (time_lines : List String) (timeout : ℚ) (c : Case)
    (time_taken : ℚ) : Except String Result × List String :=
  let out_of_time := runlim_lines.any runlimTimeoutLine
  let result := parse_outcome out_of_time stdout
  match parse_time_lines time_lines none none none with
  | Except.error e => (Except.error e, [])
  | Except.ok (mem_used_MB, perc_CPU, exit_status) =>
    if result = "safe" ∨ result = "unsafe" ∨ result = "unknown" then
      (Except.ok { result := result, mem_used_MB := mem_used_MB,
                   exit_status := exit_status, perc_CPU := perc_CPU,
                   t := some time_taken, tout := some timeout,
                   case' := c, out := stderr },
       [fname_runlim, fname_time])
    else
      (Except.error "AssertionError", [])

/-- Concrete case used by the witnesses: an unsafe 1tx-abstract artifact. -/
def case0 : Case :=
  ⟨"Foo", "out/Foo.sol/Foo.json", "src/unsafe/1tx-abstract/Foo.sol", false, "", "unsafe"⟩

/-!
## bench.py: result serialization (ResultEncoder and dump_results)
-/

/-- The JSON object produced for one `Result` by `ResultEncoder.default`
(bench.py lines 307-326). -/
structure JsonRecord where
  name : String
  solc_version : String
  ds : Bool
  solved : Bool
  correct : Option Bool
  t : Option ℚ
  tout : Option ℚ
  memMB : Option ℚ
  exit_status : Option ℤ
  out : String
  deriving DecidableEq, Repr

/-- bench.py `ResultEncoder.default`: `solved` is true for the two definite
outcomes and `correct` is `None` unless solved. -/
def ResultEncoder_default (r : Result) (solc_version : String) : JsonRecord :=
  let solved := (r.result == "safe") || (r.result == "unsafe")
  { name := get_name r.case', solc_version := solc_version, ds := r.case'.ds,
    solved := solved,
    correct := if solved then some (r.result == r.case'.expected) else none,
    t := r.t, tout := r.tout, memMB := r.mem_used_MB,
    exit_status := r.exit_status, out := r.out }

/-- The `correct` cell written by the CSV writer in `dump_results` (bench.py
lines 349-351): `corr_as_sqlite` starts as the empty string and is replaced
by `int(r.result == r.case.expected)` whenever `r.result is not None`. -/
def csv_correct_cell (result : Option String) (expected : String) : String :=
  match result with
  | none => ""
  | some res => if res = expected then "1" else "0"

/-- The `correct` CSV cell for an actual `Result`: the `result` attribute has
type `str` and is never Python `None`, so the `is not None` guard always
holds. -/
def dump_results_csv_correct (r : Result) : String :=
  csv_correct_cell (some r.result) r.case'.expected

/-- Concrete safe case for the serialization records. -/
def case_safe0 : Case :=
  ⟨"Bar", "out/Bar.sol/Bar.json", "src/safe/1tx-abstract/Bar.sol", false, "", "safe"⟩

/-- A timed-out (outcome unknown) result on `case_safe0`. -/
def r2_unknown : Result :=
  ⟨"unknown", none, none, none, some 10, some 25, case_safe0, ""⟩

/-!
## gen_graphs.py: timeout validation, CDF tables and boxgraph values
-/

/-- One row of the `results` table consumed by gen_graphs.py. -/
structure ResultRow where
  solver : String
  name : String
  result : String
  t : ℚ
  tout : ℚ
  deriving DecidableEq, Repr

/-- `select tout from results group by tout`: the distinct timeout bounds. -/
def distinct_touts (rows : List ResultRow) : List ℚ :=
  (rows.map (fun r => r.tout)).dedup

/-- gen_graphs.py `check_all_same_tout` (lines 172-190): `exit(-1)` with a
diagnostic when two or more distinct timeouts are present, or none at all. -/
def check_all_same_tout (rows : List ResultRow) : Except String Unit :=
  if 1 < (distinct_touts rows).length then
    Except.error "ERROR. Some systems were ran with differing timeouts"
  else if (distinct_touts rows).length = 0 then
    Except.error "ERROR: no data in database!"
  else Except.ok ()

/-- `select solver from results group by solver`. -/
def solvers_of (rows : List ResultRow) : List String :=
  (rows.map (fun r => r.solver)).dedup

/-- `select t from results where solver='s' and result!='unknown'`
(gen_graphs.py lines 54-58). -/
def solver_times (rows : List ResultRow) (solver : String) : List ℚ :=
  (rows.filter (fun r => r.solver == solver && r.result != "unknown")).map
    (fun r => r.t)

/-- The per-solver CDF tables produced by `gen_cdf_files`. -/
def gen_cdf_tables (rows : List ResultRow) : List (String × List (ℕ × ℕ)) :=
  (solvers_of rows).map (fun s => (s, convert_to_cdf (solver_times rows s)))

/-- gen_graphs.py `main` (lines 275-283): `check_all_same_tout` runs first
and its `exit(-1)` prevents any aggregate computation. -/
def gen_graphs_main (rows : List ResultRow) :
    Except String (List (String × List (ℕ × ℕ))) :=
  match check_all_same_tout rows with
  | Except.error e => Except.error e
  | Except.ok _ => Except.ok (gen_cdf_tables rows)

/-- gen_graphs.py `gen_boxgraphs` (lines 213-222): the SQL case expression
substitutes `tout` for the time of an unknown result, and the Python caps
the value with `t = min(t, tout)`. -/
def box_time (result : String) (t tout : ℚ) : ℚ :=
  min (if result = "unknown" then tout else t) tout

/-- Row used by the C5 witness: timeout 25. -/
def row5a : ResultRow := ⟨"hevm-z3", "n1", "safe", 1, 25⟩

/-- Row used by the C5 witness: timeout 30. -/
def row5b : ResultRow := ⟨"halmos", "n1", "unknown", 2, 30⟩

/-- Rows used by the C5 witness: same case name, two different timeouts. -/
def rows5 : List ResultRow := [row5a, row5b]

/-! ## Lemmas and theorems -/

/-! ### Supporting lemmas about the bucket loop -/

lemma cdf_rows_aux_nil (time : List ℚ) (l : ℤ) : cdf_rows_aux time l [] = [] := rfl

lemma cdf_rows_aux_cons (time : List ℚ) (l : ℤ) (a : ℕ) (as : List ℕ) :
    cdf_rows_aux time l (a :: as) =
      if l ≠ (cnt time a : ℤ) then
        (cnt time a, a) :: cdf_rows_aux time (cnt time a) as
      else
        cdf_rows_aux time (cnt time a) as := rfl

lemma countP_mono {α : Type} (p q : α → Bool) (l : List α)
    (h : ∀ a, p a = true → q a = true) : l.countP p ≤ l.countP q := by
  induction l with
  | nil => simp
  | cons x xs ih =>
    rw [List.countP_cons, List.countP_cons]
    by_cases hx : p x = true
    · have hq := h x hx
      simp only [hx, hq, if_true]
      omega
    · have hx' : p x = false := by simpa using hx
      simp only [hx']
      by_cases hq : q x = true <;> simp [hq] <;> omega

lemma cnt_mono (time : List ℚ) {a b : ℕ} (h : a ≤ b) : cnt time a ≤ cnt time b := by
  apply countP_mono
  intro t ht
  have h1 : t < (a : ℚ) := of_decide_eq_true ht
  have h2 : (a : ℚ) ≤ (b : ℚ) := by exact_mod_cast h
  exact decide_eq_true (lt_of_lt_of_le h1 h2)

lemma cdf_aux_mem (time : List ℚ) :
    ∀ (bs : List ℕ) (l : ℤ), bs.Pairwise (· < ·) →
      (∀ b ∈ bs, l ≤ (cnt time b : ℤ)) →
      ∀ p ∈ cdf_rows_aux time l bs,
        l < (p.1 : ℤ) ∧ p.2 ∈ bs ∧ p.1 = cnt time p.2 := by
  intro bs
  induction bs with
  | nil => intro l _ _ p hp; simp [cdf_rows_aux] at hp
  | cons a as ih =>
    intro l hpw hl p hp
    rw [List.pairwise_cons] at hpw
    have hl' : ∀ b ∈ as, (cnt time a : ℤ) ≤ (cnt time b : ℤ) := by
      intro b hb
      exact_mod_cast cnt_mono time (le_of_lt (hpw.1 b hb))
    have hla : l ≤ (cnt time a : ℤ) := hl a (List.mem_cons_self a as)
    rw [cdf_rows_aux_cons] at hp
    by_cases hne : l ≠ (cnt time a : ℤ)
    · rw [if_pos hne] at hp
      rcases List.mem_cons.mp hp with h | h
      · subst h
        exact ⟨lt_of_le_of_ne hla hne, List.mem_cons_self a as, rfl⟩
      · obtain ⟨h1, h2, h3⟩ := ih (cnt time a) hpw.2 hl' p h
        exact ⟨lt_of_le_of_lt hla h1, List.mem_cons_of_mem a h2, h3⟩
    · rw [if_neg hne] at hp
      have hleq : l = (cnt time a : ℤ) := not_not.mp hne
      obtain ⟨h1, h2, h3⟩ := ih (cnt time a) hpw.2 hl' p hp
      exact ⟨hleq ▸ h1, List.mem_cons_of_mem a h2, h3⟩

lemma cdf_aux_pairwise (time : List ℚ) :
    ∀ (bs : List ℕ) (l : ℤ), bs.Pairwise (· < ·) →
      (∀ b ∈ bs, l ≤ (cnt time b : ℤ)) →
      (cdf_rows_aux time l bs).Pairwise
        (fun p q : ℕ × ℕ => p.1 < q.1 ∧ p.2 < q.2) := by
  intro bs
  induction bs with
  | nil => intro l _ _; simp [cdf_rows_aux]
  | cons a as ih =>
    intro l hpw hl
    rw [List.pairwise_cons] at hpw
    have hl' : ∀ b ∈ as, (cnt time a : ℤ) ≤ (cnt time b : ℤ) := by
      intro b hb
      exact_mod_cast cnt_mono time (le_of_lt (hpw.1 b hb))
    have hrec := ih (cnt time a) hpw.2 hl'
    rw [cdf_rows_aux_cons]
    by_cases hne : l ≠ (cnt time a : ℤ)
    · rw [if_pos hne, List.pairwise_cons]
      refine ⟨?_, hrec⟩
      intro q hq
      obtain ⟨h1, h2, _⟩ := cdf_aux_mem time as (cnt time a) hpw.2 hl' q hq
      exact ⟨by exact_mod_cast h1, hpw.1 q.2 h2⟩
    · rw [if_neg hne]
      exact hrec

lemma cdf_aux_eq_nil (time : List ℚ) :
    ∀ (bs : List ℕ) (l : ℤ), cdf_rows_aux time l bs = [] →
      ∀ b ∈ bs, (cnt time b : ℤ) = l := by
  intro bs
  induction bs with
  | nil => simp
  | cons a as ih =>
    intro l h b hb
    rw [cdf_rows_aux_cons] at h
    by_cases hne : l ≠ (cnt time a : ℤ)
    · rw [if_pos hne] at h
      exact absurd h (List.cons_ne_nil _ _)
    · rw [if_neg hne] at h
      have hla : (cnt time a : ℤ) = l := (not_not.mp hne).symm
      rcases List.mem_cons.mp hb with rfl | hb'
      · exact hla
      · exact (ih (cnt time a) h b hb').trans hla

lemma cdf_aux_nil_of_const (time : List ℚ) :
    ∀ (bs : List ℕ) (l : ℤ), (∀ b ∈ bs, (cnt time b : ℤ) = l) →
      cdf_rows_aux time l bs = [] := by
  intro bs
  induction bs with
  | nil => intro l _; simp [cdf_rows_aux]
  | cons a as ih =>
    intro l h
    have ha := h a (List.mem_cons_self a as)
    rw [cdf_rows_aux_cons]
    rw [if_neg (not_not_intro ha.symm)]
    apply ih
    intro b hb
    exact (h b (List.mem_cons_of_mem a hb)).trans ha.symm

lemma cdf_aux_getLast (time : List ℚ) :
    ∀ (bs : List ℕ) (l : ℤ) (p : ℕ × ℕ),
      (cdf_rows_aux time l bs).getLast? = some p →
      ∃ h : bs ≠ [], p.1 = cnt time (bs.getLast h) := by
  intro bs
  induction bs with
  | nil => intro l p h; simp [cdf_rows_aux] at h
  | cons a as ih =>
    intro l p h
    rw [cdf_rows_aux_cons] at h
    by_cases hne : l ≠ (cnt time a : ℤ)
    · rw [if_pos hne] at h
      cases hr : cdf_rows_aux time (cnt time a) as with
      | nil =>
        rw [hr] at h
        have hp : p = (cnt time a, a) := by
          simpa using h.symm
        refine ⟨List.cons_ne_nil a as, ?_⟩
        have hconst := cdf_aux_eq_nil time as (cnt time a) hr
        cases as with
        | nil => simp [hp, List.getLast]
        | cons a' as' =>
          rw [List.getLast_cons (List.cons_ne_nil a' as')]
          have hmem := List.getLast_mem (l := a' :: as') (List.cons_ne_nil a' as')
          have hc := hconst _ hmem
          rw [hp]
          exact_mod_cast hc.symm
      | cons r rs =>
        rw [hr, List.getLast?_cons_cons, ← hr] at h
        obtain ⟨has, hp⟩ := ih (cnt time a) p h
        exact ⟨List.cons_ne_nil a as, by rw [List.getLast_cons has]; exact hp⟩
    · rw [if_neg hne] at h
      obtain ⟨has, hp⟩ := ih (cnt time a) p h
      exact ⟨List.cons_ne_nil a as, by rw [List.getLast_cons has]; exact hp⟩

lemma range'_getLast? : ∀ (n s : ℕ), (List.range' s (n + 1)).getLast? = some (s + n) := by
  intro n
  induction n with
  | zero => intro s; simp [List.range'_one]
  | succ n ih =>
    intro s
    rw [List.range'_succ, List.range'_succ, List.getLast?_cons_cons, ← List.range'_succ]
    rw [ih (s + 1)]
    congr 1
    omega

/-- If the count is the same value `c` at every bucket edge, exactly one row
is written: `(c, 0)`. -/
lemma convert_to_cdf_const (time : List ℚ) (c : ℕ)
    (h : ∀ b : ℕ, b < 3600 → cnt time b = c) :
    convert_to_cdf time = [(c, 0)] := by
  unfold convert_to_cdf
  rw [List.range_eq_range', show (3600 : ℕ) = 3599 + 1 from rfl, List.range'_succ]
  rw [cdf_rows_aux_cons]
  rw [h 0 (by omega)]
  rw [if_pos (show (-1 : ℤ) ≠ (c : ℕ) by have := Int.natCast_nonneg c; omega)]
  have htail : cdf_rows_aux time (c : ℤ) (List.range' (0 + 1) 3599) = [] := by
    apply cdf_aux_nil_of_const
    intro b hb
    rw [List.mem_range'_1] at hb
    rw [h b (by omega)]
  rw [htail]

lemma convert_to_cdf_nil : convert_to_cdf ([] : List ℚ) = [(0, 0)] :=
  convert_to_cdf_const [] 0 (fun b _ => by simp [cnt])

/-- Along the loop over `range' s n`, the carried `lastnum` is `-1` when the
next bucket edge is `0` and otherwise the count at the preceding bucket edge,
so each emitted row records a count different from the preceding bucket. -/
lemma cdf_aux_changed (time : List ℚ) :
    ∀ (n s : ℕ) (l : ℤ),
      (s = 0 → l = -1) → (∀ s0 : ℕ, s = s0 + 1 → l = (cnt time s0 : ℤ)) →
      ∀ p ∈ cdf_rows_aux time l (List.range' s n),
        p.1 = cnt time p.2 ∧ (p.2 = 0 ∨ (cnt time (p.2 - 1) : ℤ) ≠ (p.1 : ℤ)) := by
  intro n
  induction n with
  | zero => intro s l _ _ p hp; simp [List.range'_zero, cdf_rows_aux] at hp
  | succ n ih =>
    intro s l h0 hs p hp
    rw [List.range'_succ, cdf_rows_aux_cons] at hp
    have hrec := ih (s + 1) (cnt time s : ℤ)
      (fun h => absurd h (by omega))
      (fun s0 hs0 => by
        have hse : s0 = s := by omega
        rw [hse])
    by_cases hne : l ≠ (cnt time s : ℤ)
    · rw [if_pos hne] at hp
      rcases List.mem_cons.mp hp with rfl | hmem
      · refine ⟨rfl, ?_⟩
        rcases Nat.eq_zero_or_pos s with hz | hpos
        · exact Or.inl hz
        · right
          obtain ⟨s0, rfl⟩ : ∃ s0, s = s0 + 1 := ⟨s - 1, by omega⟩
          have hls0 := hs s0 rfl
          rw [Nat.add_sub_cancel]
          rw [← hls0]
          exact hne
      · exact hrec p hmem
    · rw [if_neg hne] at hp
      exact hrec p hp

/-- C8: the emitted cumulative-solve rows have strictly increasing counts and
strictly increasing bucket times, each row's count is the count of times below
its bucket edge, and a row is emitted only when that count differs from the
count at the preceding bucket (the first bucket `0` being emitted against the
initial `-1` tracker). -/
theorem convert_to_cdf_rows_monotone (time : List ℚ) :
    (convert_to_cdf time).Pairwise (fun p q : ℕ × ℕ => p.1 < q.1 ∧ p.2 < q.2) ∧
    ∀ p ∈ convert_to_cdf time,
      p.1 = cnt time p.2 ∧ (p.2 = 0 ∨ (cnt time (p.2 - 1) : ℤ) ≠ (p.1 : ℤ)) := by
  constructor
  · apply cdf_aux_pairwise
    · exact List.pairwise_lt_range 3600
    · intro b _
      have := Int.natCast_nonneg (cnt time b)
      omega
  · intro p hp
    unfold convert_to_cdf at hp
    rw [List.range_eq_range'] at hp
    exact cdf_aux_changed time 3600 0 (-1)
      (fun _ => rfl) (fun s0 h => absurd h (by omega)) p hp

/-- Witness for C8 at the concrete input `[]`: the single emitted row
`(0, 0)` satisfies the stated properties. -/
theorem convert_to_cdf_rows_monotone_witness :
    ((0, 0) ∈ convert_to_cdf ([] : List ℚ)) ∧
      ((0, 0) : ℕ × ℕ).1 = cnt [] ((0, 0) : ℕ × ℕ).2 ∧
      (((0, 0) : ℕ × ℕ).2 = 0 ∨
        (cnt [] (((0, 0) : ℕ × ℕ).2 - 1) : ℤ) ≠ ((((0, 0) : ℕ × ℕ).1 : ℕ) : ℤ)) := by
  have hmem : ((0, 0) : ℕ × ℕ) ∈ convert_to_cdf ([] : List ℚ) := by
    rw [convert_to_cdf_nil]
    exact List.mem_singleton.mpr rfl
  exact ⟨hmem, (convert_to_cdf_rows_monotone []).2 (0, 0) hmem⟩

/-- C10: when every elapsed time is non-negative, the emitted table starts
with the row `(0, 0)`: at bucket edge `0` the count is `0`, which differs
from the initial `lastnum = -1`, so a first row is always emitted. -/
theorem convert_to_cdf_first_row (time : List ℚ) (ht : ∀ t ∈ time, 0 ≤ t) :
    (convert_to_cdf time).head? = some (0, 0) := by
  have hc0 : cnt time 0 = 0 := by
    rw [cnt, List.countP_eq_zero]
    intro t htm
    simp only [Nat.cast_zero, decide_eq_true_eq]
    exact not_lt.mpr (ht t htm)
  unfold convert_to_cdf
  rw [List.range_eq_range', show (3600 : ℕ) = 3599 + 1 from rfl, List.range'_succ]
  rw [cdf_rows_aux_cons, hc0]
  rw [if_pos (by decide : (-1 : ℤ) ≠ ((0 : ℕ) : ℤ))]
  rfl

/-- Witness for C10 at the concrete input `[]`. -/
theorem convert_to_cdf_first_row_witness :
    (∀ t ∈ ([] : List ℚ), 0 ≤ t) ∧
      (convert_to_cdf ([] : List ℚ)).head? = some (0, 0) :=
  ⟨by simp, convert_to_cdf_first_row [] (by simp)⟩

/-- C3 (amended): the count in the last emitted row equals the number of
elapsed times strictly below 3599 (the last bucket edge), for every input. -/
theorem convert_to_cdf_last_row (time : List ℚ) :
    ((convert_to_cdf time).getLast?).map Prod.fst = some (cnt time 3599) := by
  have h0 : convert_to_cdf time ≠ [] := by
    intro hnil
    have h00 := cdf_aux_eq_nil time (List.range 3600) (-1) hnil 0
      (List.mem_range.mpr (by omega))
    have := Int.natCast_nonneg (cnt time 0)
    omega
  have hp : (convert_to_cdf time).getLast? =
      some ((convert_to_cdf time).getLast h0) :=
    List.getLast?_eq_getLast _ h0
  obtain ⟨hne, hp1⟩ :=
    cdf_aux_getLast time (List.range 3600) (-1) ((convert_to_cdf time).getLast h0) hp
  have hr : (List.range 3600).getLast? = some 3599 := by
    rw [List.range_eq_range', show (3600 : ℕ) = 3599 + 1 from rfl, range'_getLast?]
  have hr2 : (List.range 3600).getLast hne = 3599 := by
    have := List.getLast?_eq_getLast (List.range 3600) hne
    rw [hr] at this
    exact (Option.some.inj this).symm
  rw [hp, Option.map_some']
  rw [hp1, hr2]

/-- C3 counterexample: with the single elapsed time 3599.5, the last emitted
row has count 0, but the number of times strictly below 3600 is 1; the claim
"count at bucket edge 3599 equals the count of times < 3600" fails here. -/
theorem convert_to_cdf_last_bucket_cex :
    ¬ (((convert_to_cdf [(7199 : ℚ) / 2]).getLast?).map Prod.fst =
        some (cnt [(7199 : ℚ) / 2] 3600)) := by
  have hconst : ∀ b : ℕ, b < 3600 → cnt [(7199 : ℚ) / 2] b = 0 := by
    intro b hb
    rw [cnt, List.countP_eq_zero]
    intro t htm
    have ht : t = (7199 : ℚ) / 2 := by simpa using htm
    have hble : (b : ℚ) ≤ 3599 := by exact_mod_cast Nat.le_of_lt_succ hb
    simp only [decide_eq_true_eq]
    rw [ht]
    intro hlt
    have : ((7199 : ℚ) / 2) < 3599 := lt_of_lt_of_le hlt hble
    norm_num at this
  rw [convert_to_cdf_const [(7199 : ℚ) / 2] 0 hconst]
  have h36 : cnt [(7199 : ℚ) / 2] 3600 = 1 := by
    rw [cnt, List.countP_cons, List.countP_nil]
    norm_num
  rw [h36]
  simp

lemma getLast?_cons_match {α : Type} (a : α) (xs : List α) :
    (a :: xs).getLast? =
      match xs.getLast? with
      | some u => some u
      | none => some a := by
  cases xs with
  | nil => rfl
  | cons x xs' =>
    rw [List.getLast?_cons_cons,
      List.getLast?_eq_getLast (x :: xs') (List.cons_ne_nil x xs')]

/-- The last-match-wins fold of `scan_result`, characterised: it returns the
last captured token when one exists, and the accumulator otherwise. -/
lemma scan_foldl_eq (f : String → Option String) :
    ∀ (ls : List String) (acc : Option String),
      ls.foldl (fun r l => match f l with | some t => some t | none => r) acc =
        match (ls.filterMap f).getLast? with
        | some t => some t
        | none => acc := by
  intro ls
  induction ls with
  | nil => intro acc; rfl
  | cons l ls ih =>
    intro acc
    rw [List.foldl_cons, ih]
    cases hf : f l with
    | none =>
      simp only [hf]
      rw [List.filterMap_cons_none hf]
    | some t =>
      simp only [hf]
      rw [List.filterMap_cons_some hf, getLast?_cons_match]
      cases hg : (ls.filterMap f).getLast? <;> simp

/-- C1: whenever some line of the runlim report matches the out-of-time
status pattern, any `Result` returned by `execute_case` has outcome
`"unknown"`, whatever the stdout contained. -/
theorem execute_case_timeout_unknown
    (fname_runlim fname_time : String) (runlim_lines : List String)
    (stdout stderr : String) (time_lines : List String) (timeout : ℚ) (c : Case)
    (time_taken : ℚ) (r : Result)
    (hto : ∃ l ∈ runlim_lines, runlimTimeoutLine l = true)
    (hok : (execute_case fname_runlim fname_time runlim_lines stdout stderr
              time_lines timeout c time_taken).1 = Except.ok r) :
    r.result = "unknown" := by
  have hany : runlim_lines.any runlimTimeoutLine = true := by
    obtain ⟨l, hl, h⟩ := hto
    exact List.any_eq_true.mpr ⟨l, hl, h⟩
  have hpo : parse_outcome true stdout = "unknown" := by simp [parse_outcome]
  unfold execute_case at hok
  rw [hany] at hok
  simp only [hpo] at hok
  cases hpt : parse_time_lines time_lines none none none with
  | error e => rw [hpt] at hok; simp at hok
  | ok v =>
    obtain ⟨m, p, ex⟩ := v
    rw [hpt] at hok
    simp at hok
    subst hok
    rfl

/-- Witness for C1: a concrete run whose runlim report signals out-of-time
while stdout contains `result: safe`; the outcome is still `"unknown"`. -/
theorem execute_case_timeout_unknown_witness :
    (∃ l ∈ ["[runlim] status: out of time"], runlimTimeoutLine l = true) ∧
    (execute_case "o1" "o2" ["[runlim] status: out of time"] "result: safe" ""
        [] 25 case0 3).1 =
      Except.ok ⟨"unknown", none, none, none, some 3, some 25, case0, ""⟩ ∧
    (⟨"unknown", none, none, none, some 3, some 25, case0, ""⟩ : Result).result
      = "unknown" :=
  ⟨by decide, rfl,
    execute_case_timeout_unknown "o1" "o2" ["[runlim] status: out of time"]
      "result: safe" "" [] 25 case0 3
      ⟨"unknown", none, none, none, some 3, some 25, case0, ""⟩
      (by decide) rfl⟩

/-- C7: with no out-of-time signal, the parsed outcome is the token of the
last stdout line matching `result: (.*)$` when one exists, and `"unknown"`
(not an error) when no line matches. -/
theorem parse_outcome_tagged_lines (stdout : String) :
    (∀ h : (pySplitLines stdout).filterMap resultToken ≠ [],
        parse_outcome false stdout =
          ((pySplitLines stdout).filterMap resultToken).getLast h) ∧
    ((pySplitLines stdout).filterMap resultToken = [] →
        parse_outcome false stdout = "unknown") := by
  have hscan : scan_result stdout =
      match ((pySplitLines stdout).filterMap resultToken).getLast? with
      | some t => some t
      | none => none :=
    scan_foldl_eq resultToken (pySplitLines stdout) none
  constructor
  · intro h
    have hg := List.getLast?_eq_getLast
      ((pySplitLines stdout).filterMap resultToken) h
    simp only [parse_outcome, hscan, hg]
    rfl
  · intro h
    simp only [parse_outcome, hscan, h]
    rfl

/-- Witness for C7: two tagged lines; the last one wins. -/
theorem parse_outcome_tagged_lines_witness :
    ((pySplitLines "info\nresult: foo\nresult: safe").filterMap resultToken ≠ []) ∧
    parse_outcome false "info\nresult: foo\nresult: safe" = "safe" := by
  refine ⟨by decide, ?_⟩
  have h := (parse_outcome_tagged_lines "info\nresult: foo\nresult: safe").1 (by decide)
  exact h.trans (by decide)

/-- C9 (amended): both scratch files are unlinked exactly on the paths on
which `execute_case` returns normally; on a raised exception (failed outcome
assertion or telemetry `ValueError`) no unlink is performed. -/
theorem execute_case_cleanup (f1 f2 : String) (runlim_lines : List String)
    (stdout stderr : String) (time_lines : List String) (timeout : ℚ) (c : Case)
    (time_taken : ℚ) :
    (∀ r, (execute_case f1 f2 runlim_lines stdout stderr time_lines timeout c
        time_taken).1 = Except.ok r →
      (execute_case f1 f2 runlim_lines stdout stderr time_lines timeout c
        time_taken).2 = [f1, f2]) ∧
    (∀ e, (execute_case f1 f2 runlim_lines stdout stderr time_lines timeout c
        time_taken).1 = Except.error e →
      (execute_case f1 f2 runlim_lines stdout stderr time_lines timeout c
        time_taken).2 = []) := by
  unfold execute_case
  cases hpt : parse_time_lines time_lines none none none with
  | error e => simp
  | ok v =>
    obtain ⟨m, p, ex⟩ := v
    by_cases hcond : parse_outcome (runlim_lines.any runlimTimeoutLine) stdout = "safe"
        ∨ parse_outcome (runlim_lines.any runlimTimeoutLine) stdout = "unsafe"
        ∨ parse_outcome (runlim_lines.any runlimTimeoutLine) stdout = "unknown"
    · simp [hcond]
    · simp [hcond]

/-- C9 counterexample: on the unrecognized-token path (`result: garbage`)
the assertion fires before the unlinks, so no scratch file is deleted. -/
theorem execute_case_cleanup_cex :
    (execute_case "o1" "o2" [] "result: garbage" "" [] 25 case0 1).2 = [] ∧
    (execute_case "o1" "o2" [] "result: garbage" "" [] 25 case0 1).1 =
      Except.error "AssertionError" :=
  ⟨rfl, rfl⟩

/-- Witness for C9: on a normally returning run both files are unlinked. -/
theorem execute_case_cleanup_witness :
    (execute_case "o1" "o2" [] "result: safe" "" [] 25 case0 2).1 =
      Except.ok ⟨"safe", none, none, none, some 2, some 25, case0, ""⟩ ∧
    (execute_case "o1" "o2" [] "result: safe" "" [] 25 case0 2).2 = ["o1", "o2"] :=
  ⟨rfl, (execute_case_cleanup "o1" "o2" [] "result: safe" "" [] 25 case0 2).1
    ⟨"safe", none, none, none, some 2, some 25, case0, ""⟩ rfl⟩

/-- C2 (code bug): at an unknown outcome the JSON encoder emits
`correct = None`, but the CSV writer emits the definite value `0`, because
its guard tests `r.result is not None` (always true for the `str`-typed
field) instead of testing whether the case was solved. -/
theorem dump_correct_divergence :
    (ResultEncoder_default r2_unknown "0.8.19").correct = none ∧
    dump_results_csv_correct r2_unknown = "0" :=
  ⟨rfl, rfl⟩

lemma length_le_one_all_eq {α : Type} (l : List α) (h : l.length ≤ 1) :
    ∀ a ∈ l, ∀ b ∈ l, a = b := by
  intro a ha b hb
  cases l with
  | nil => simp at ha
  | cons x xs =>
    cases xs with
    | nil =>
      simp only [List.mem_singleton] at ha hb
      rw [ha, hb]
    | cons y ys => simp at h

/-- C5: the aggregation pipeline fails with a diagnostic, before any CDF
table is computed, when two distinct timeout bounds occur in the result set
or when the result set is empty. -/
theorem check_all_same_tout_rejects :
    (∀ (rows : List ResultRow) (r1 r2 : ResultRow), r1 ∈ rows → r2 ∈ rows →
        r1.tout ≠ r2.tout → ∃ e, gen_graphs_main rows = Except.error e) ∧
    (∃ e, gen_graphs_main ([] : List ResultRow) = Except.error e) := by
  constructor
  · intro rows r1 r2 h1 h2 hne
    have hm1 : r1.tout ∈ distinct_touts rows :=
      List.mem_dedup.mpr (List.mem_map_of_mem _ h1)
    have hm2 : r2.tout ∈ distinct_touts rows :=
      List.mem_dedup.mpr (List.mem_map_of_mem _ h2)
    have hlen : 1 < (distinct_touts rows).length := by
      by_contra hc
      push_neg at hc
      exact hne (length_le_one_all_eq _ hc _ hm1 _ hm2)
    refine ⟨"ERROR. Some systems were ran with differing timeouts", ?_⟩
    simp only [gen_graphs_main, check_all_same_tout, if_pos hlen]
  · exact ⟨_, rfl⟩

/-- Witness for C5: a pair of rows with timeouts 25 and 30 makes the
pipeline fail before computing anything. -/
theorem check_all_same_tout_rejects_witness :
    (row5a ∈ rows5) ∧ (row5b ∈ rows5) ∧ (row5a.tout ≠ row5b.tout) ∧
    (∃ e, gen_graphs_main rows5 = Except.error e) :=
  ⟨by decide, by decide, by decide,
    check_all_same_tout_rejects.1 rows5 row5a row5b (by decide) (by decide)
      (by decide)⟩

/-- C4 counterexample: an unknown result with measured time 1 under timeout
25 contributes 25, not the lesser of measured time and timeout. -/
theorem box_time_cex : ¬ (box_time "unknown" 1 25 = min (1 : ℚ) 25) := by
  rw [box_time, if_pos rfl, min_self,
    min_eq_left (by norm_num : (1 : ℚ) ≤ 25)]
  norm_num

/-- C4 (amended): a solved row contributes `min(measured time, timeout)`; an
unknown row contributes the timeout bound itself, whatever its measured
time. -/
theorem box_time_rule (result : String) (t tout : ℚ) :
    (result ≠ "unknown" → box_time result t tout = min t tout) ∧
    (result = "unknown" → box_time result t tout = tout) := by
  constructor
  · intro h; rw [box_time, if_neg h]
  · intro h; rw [box_time, if_pos h, min_self]

/-- Witness for C4: the spec scenario, solver A solved in 3.2s under timeout
25 and solver B unknown under timeout 25. -/
theorem box_time_rule_witness :
    ("safe" ≠ "unknown") ∧
    box_time "safe" (16 / 5 : ℚ) 25 = min (16 / 5 : ℚ) 25 ∧
    box_time "unknown" (16 / 5 : ℚ) 25 = 25 :=
  ⟨by decide, (box_time_rule "safe" (16 / 5) 25).1 (by decide),
    (box_time_rule "unknown" (16 / 5) 25).2 rfl⟩

/-!
## bench.py: classification of artifact paths (C6)
-/

lemma startswith_agree : ∀ (p q l : List Char),
    startswith p l = true → startswith q l = true → p.length ≤ q.length →
    startswith p q = true := by
  intro p
  induction p with
  | nil => intro q l _ _ _; rfl
  | cons a ps ih =>
    intro q l hp hq hlen
    cases q with
    | nil => simp at hlen
    | cons b qs =>
      cases l with
      | nil => simp [startswith] at hp
      | cons c cs =>
        simp only [startswith, Bool.and_eq_true, beq_iff_eq] at hp hq ⊢
        exact ⟨hp.1.trans hq.1.symm, ih qs cs hp.2 hq.2 (by simpa using hlen)⟩

lemma safe_unsafe_exclusive (s : String) :
    startswith "src/unsafe".data s.data = true →
    startswith "src/safe".data s.data = false := by
  intro hu
  cases hs : startswith "src/safe".data s.data with
  | false => rfl
  | true =>
    exfalso
    have hagree := startswith_agree "src/safe".data "src/unsafe".data s.data
      hs hu (by decide)
    have hfalse : startswith "src/safe".data "src/unsafe".data = false := by decide
    rw [hfalse] at hagree
    exact Bool.noConfusion hagree

/-- C6: `determine_expected` classifies a path as safe exactly when it
starts with `src/safe`, as unsafe exactly when it starts with `src/unsafe`,
and raises (so that no `Case` is constructed) exactly when it starts with
neither. -/
theorem determine_expected_spec (sol_file : String) :
    (determine_expected sol_file = Except.ok "safe" ↔
      startswith "src/safe".data sol_file.data = true) ∧
    (determine_expected sol_file = Except.ok "unsafe" ↔
      startswith "src/unsafe".data sol_file.data = true) ∧
    ((∃ e, determine_expected sol_file = Except.error e) ↔
      (startswith "src/safe".data sol_file.data = false ∧
        startswith "src/unsafe".data sol_file.data = false)) ∧
    (startswith "src/safe".data sol_file.data = false →
      startswith "src/unsafe".data sol_file.data = false →
      ∀ contract json_fname ds fn,
        ∃ e, case_init contract json_fname sol_file ds fn = Except.error e) := by
  cases hsafe : startswith "src/safe".data sol_file.data with
  | true =>
    have hu : startswith "src/unsafe".data sol_file.data = false := by
      cases hu : startswith "src/unsafe".data sol_file.data with
      | false => rfl
      | true =>
        have hx := safe_unsafe_exclusive sol_file hu
        rw [hx] at hsafe
        exact Bool.noConfusion hsafe
    simp [determine_expected, case_init, hsafe, hu]
  | false =>
    cases hu : startswith "src/unsafe".data sol_file.data with
    | true => simp [determine_expected, case_init, hsafe, hu]
    | false => simp [determine_expected, case_init, hsafe, hu]

/-- Witness for C6: a path under neither root yields no `Case`. -/
theorem determine_expected_spec_witness :
    (startswith "src/safe".data "test/tricky.sol".data = false) ∧
    (startswith "src/unsafe".data "test/tricky.sol".data = false) ∧
    (∃ e, case_init "C" "out/C.json" "test/tricky.sol" true "proveFoo" =
      Except.error e) :=
  ⟨by decide, by decide,
    (determine_expected_spec "test/tricky.sol").2.2.2 (by decide) (by decide)
      "C" "out/C.json" true "proveFoo"⟩

end Bench
